import Mathlib

/-!
# Shallow embedding of `collect-plugins.py` (munin-plugin-gallery)

This file embeds the data model and the operations of the munin plugin
gallery collector and proves properties of them.  The embedding follows the
Python source closely:

* Python strings are modelled as `String`/`List Char`; the character-level
  primitives (`str.lower`, `str.strip`, `str.split`, `str.splitlines`,
  `\w`/`\s` character classes, ...) are modelled on their ASCII fragment and
  line boundaries are modelled as `'\n'` only.
* The regular expressions of the source are transcribed into dedicated
  matching functions whose structure mirrors the (anchoring, greediness and
  backtracking) semantics of the CPython `re` module on the concrete
  patterns involved.
* External effects (reading the plugin file, spawning the `perldoc`
  renderer, asking git for a timestamp) are supplied as explicit oracle
  values, and exceptions are modelled with `Except`/error components.
-/

namespace CollectPlugins

/-! ## ASCII model of Python character/string primitives -/

/-- Build a `Char` from a code point below the surrogate range. -/
def mkChar (n : Nat) (h : n < 55296) : Char := ⟨⟨⟨n, by omega⟩⟩, Or.inl h⟩

theorem mkChar_toNat (n : Nat) (h : n < 55296) : (mkChar n h).toNat = n := rfl

/-- Python `str.lower` on a single character (ASCII fragment). -/
def pyLowerChar (c : Char) : Char :=
  if h : 65 ≤ c.toNat ∧ c.toNat ≤ 90 then mkChar (c.toNat + 32) (by omega) else c

/-- Python `str.upper` on a single character (ASCII fragment). -/
def pyUpperChar (c : Char) : Char :=
  if h : 97 ≤ c.toNat ∧ c.toNat ≤ 122 then mkChar (c.toNat - 32) (by omega) else c

def isAsciiUpper (c : Char) : Bool := decide (65 ≤ c.toNat ∧ c.toNat ≤ 90)

def isAsciiLower (c : Char) : Bool := decide (97 ≤ c.toNat ∧ c.toNat ≤ 122)

def isAsciiAlpha (c : Char) : Bool := isAsciiUpper c || isAsciiLower c

def isAsciiDigit (c : Char) : Bool := decide (48 ≤ c.toNat ∧ c.toNat ≤ 57)

/-- The regex class `\w` (ASCII fragment). -/
def isWordChar (c : Char) : Bool := isAsciiAlpha c || isAsciiDigit c || c = '_'

/-- The regex class `\s` / characters stripped by Python `str.strip()`
(ASCII fragment). -/
def isSpaceChar (c : Char) : Bool :=
  c = ' ' || c = '\t' || c = '\n' || c = '\r' || c = '\x0b' || c = '\x0c'

def pyLowerChars (l : List Char) : List Char := l.map pyLowerChar

def pyUpperChars (l : List Char) : List Char := l.map pyUpperChar

/-- Python `str.lower` (ASCII fragment). -/
def pyLower (s : String) : String := String.mk (pyLowerChars s.toList)

/-- Python `str.strip()`: drop leading and trailing whitespace. -/
def pyStripChars (l : List Char) : List Char :=
  ((l.dropWhile isSpaceChar).reverse.dropWhile isSpaceChar).reverse

/-- Split a character list at every character satisfying `p`, keeping empty
components (the semantics of Python `str.split(sep)` for a one-character
separator, and of the component decomposition used for `re.MULTILINE`). -/
def splitOnPred (p : Char → Bool) : List Char → List (List Char)
  | [] => [[]]
  | c :: cs =>
    match splitOnPred p cs with
    | [] => [[]]
    | t :: ts => if p c then [] :: t :: ts else (c :: t) :: ts

/-- Python `str.split()` without argument: whitespace runs separate tokens
and empty tokens are dropped. -/
def pySplitWs (l : List Char) : List (List Char) :=
  (splitOnPred isSpaceChar l).filter (fun t => !t.isEmpty)

/-- The components of a text between `'\n'` characters (the line starts of
these components are exactly the positions where `re.MULTILINE`'s `^`
matches). -/
def splitNl (l : List Char) : List (List Char) := splitOnPred (fun c => c = '\n') l

/-- Python `str.splitlines()` restricted to `'\n'` line boundaries: like
`splitNl` but with no empty component after a terminating newline, and no
component at all for the empty string. -/
def pySplitlines (l : List Char) : List (List Char) :=
  if l.isEmpty then []
  else if l.getLast? = some '\n' then (splitNl l).dropLast
  else splitNl l

/-- Substring test (Python `in` on strings, `re.search` of a literal). -/
def containsSub (pat : List Char) (l : List Char) : Bool :=
  pat.isPrefixOf l ||
    match l with
    | [] => false
    | _ :: cs => containsSub pat cs

/-- The remainder of `l` after the end of the first occurrence of `pat`,
when there is one. -/
def dropAfterSub (pat : List Char) (l : List Char) : Option (List Char) :=
  if pat.isPrefixOf l then some (l.drop pat.length)
  else
    match l with
    | [] => none
    | _ :: cs => dropAfterSub pat cs

/-- `re.search` of `\b<pat>\b` for a pattern made of word characters:
an occurrence of `pat` whose neighbours (when they exist) are non-word
characters.  `prev` is the character just before the current position. -/
def hasWordBounded (pat : List Char) (prev : Option Char) : List Char → Bool
  | [] => false
  | c :: cs =>
    ((match prev with | none => true | some p => !isWordChar p)
      && pat.isPrefixOf (c :: cs)
      && (match (c :: cs).drop pat.length with | [] => true | d :: _ => !isWordChar d))
    || hasWordBounded pat (some c) cs

/-- Python `<` on strings: lexicographic comparison of code points. -/
def listLt : List Char → List Char → Bool
  | [], [] => false
  | [], _ :: _ => true
  | _ :: _, [] => false
  | a :: as, b :: bs =>
    if a.toNat < b.toNat then true
    else if b.toNat < a.toNat then false
    else listLt as bs

/-- Value of a digit sequence in which single underscores may separate
digits (the accepted tails of a Python `int()` literal after the first
digit).  `acc` is the value of the digits already consumed. -/
def digitsValAux (acc : Nat) : List Char → Option Nat
  | [] => some acc
  | c :: cs =>
    if isAsciiDigit c then digitsValAux (10 * acc + (c.toNat - 48)) cs
    else if c = '_' then
      match cs with
      | [] => none
      | d :: _ => if isAsciiDigit d then digitsValAux acc cs else none
    else none

/-- Digit-sequence parser for `int()`: the first character must be a digit. -/
def parseDigits : List Char → Option Nat
  | [] => none
  | c :: cs => if isAsciiDigit c then digitsValAux 0 (c :: cs) else none

/-- Python `int(s)` (ASCII fragment): surrounding whitespace is ignored, an
optional sign precedes the digits, single underscores may separate digits;
anything else raises `ValueError`, modelled as `none`. -/
def pyIntChars (l : List Char) : Option Int :=
  match pyStripChars l with
  | '+' :: rest => (parseDigits rest).map (fun n => (n : Int))
  | '-' :: rest => (parseDigits rest).map (fun n => -(n : Int))
  | rest => (parseDigits rest).map (fun n => (n : Int))

/-! ## `MuninPluginExampleGraph` ordering (source lines 56–76) -/

/-- The `MuninPluginExampleGraph` named tuple. -/
structure MuninPluginExampleGraph where
  key : String
  filename : String
deriving DecidableEq

/-- `MuninPluginExampleGraph._get_sort_key`: the special-period table (note
that the source spells the entry for weekly graphs `"weeky"`), then `int`,
then the fallback pair `(100, key)`. -/
def getSortKey (key : String) : Int × String :=
  match
    (if pyLowerChars key.toList = "day".toList then some (-4 : Int)
     else if pyLowerChars key.toList = "weeky".toList then some (-3)
     else if pyLowerChars key.toList = "month".toList then some (-2)
     else if pyLowerChars key.toList = "year".toList then some (-1)
     else none)
  with
  | some w => (w, "")
  | none =>
    match pyIntChars key.toList with
    | some n => (n, "")
    | none => (100, key)

/-- Python `<` on `(int, str)` pairs: lexicographic. -/
def sortKeyLt (a b : Int × String) : Bool :=
  decide (a.1 < b.1) || (decide (a.1 = b.1) && listLt a.2.toList b.2.toList)

/-- `MuninPluginExampleGraph.__lt__`. -/
def MuninPluginExampleGraph.lt (a b : MuninPluginExampleGraph) : Bool :=
  sortKeyLt (getSortKey a.key) (getSortKey b.key)

/-- The comparison on bare keys induced by `__lt__`. -/
def keyLt (a b : String) : Bool := sortKeyLt (getSortKey a) (getSortKey b)

/-! ## Exceptions and generic helpers -/

/-- The Python exceptions relevant to the embedded operations. -/
inductive PyError where
  | indexError
  | ioError
  | unboundLocalError
deriving DecidableEq

deriving instance DecidableEq for Except

/-- First `some` produced by `f` along a list (the `for ... return` /
`else: return None` idiom used by the line parsers). -/
def firstSome {α β : Type} (f : α → Option β) : List α → Option β
  | [] => none
  | a :: as =>
    match f a with
    | some b => some b
    | none => firstSome f as

/-! ## Magic-marker parsing: `FAMILY_REGEX` / `CAPABILITIES_REGEX`
(source lines 89–90, 252–266)

The patterns are `^.*#%#\s*<keyword>\s*=\s*(.+)$`, applied with `search`
to single lines.  The leading greedy `.*` makes the regex engine prefer the
rightmost occurrence of the marker that leaves at least one character for
the group `(.+)`. -/

/-- Match `#%#\s*<keyword>\s*=\s*(.+)` at the head of `l`, returning what
remains of the line after the `=` (the group `(.+)` is this remainder up to
greediness of the inner `\s*`, which the subsequent `strip()` cancels; the
match fails when nothing follows the `=`). -/
def markerAt (keyword : List Char) (l : List Char) : Option (List Char) :=
  if "#%#".toList.isPrefixOf l then
    let l1 := (l.drop 3).dropWhile isSpaceChar
    if keyword.isPrefixOf l1 then
      match (l1.drop keyword.length).dropWhile isSpaceChar with
      | '=' :: rest => if rest.isEmpty then none else some rest
      | _ => none
    else none
  else none

/-- The rightmost position of `l` where `markerAt` succeeds (backtracking
order of the leading greedy `.*`). -/
def findLastMarker (keyword : List Char) : List Char → Option (List Char)
  | [] => none
  | c :: cs =>
    match findLastMarker keyword cs with
    | some r => some r
    | none => markerAt keyword (c :: cs)

/-- The value captured by `CAPABILITIES_REGEX` on one line, after
`.strip().lower().split()`. -/
def capabilitiesLineValue (line : List Char) : Option (List String) :=
  (findLastMarker "capabilities".toList line).map
    (fun r => (pySplitWs (pyLowerChars (pyStripChars r))).map String.mk)

/-- The value captured by `FAMILY_REGEX` on one line, after
`.strip().lower()`. -/
def familyLineValue (line : List Char) : Option String :=
  (findLastMarker "family".toList line).map
    (fun r => String.mk (pyLowerChars (pyStripChars r)))

/-- `MuninPlugin._parse_capabilities`: first matching line wins, `None`
when no line matches. -/
def MuninPlugin.parse_capabilities (code : List Char) : Option (List String) :=
  firstSome capabilitiesLineValue (pySplitlines code)

/-- `MuninPlugin._parse_family`: first matching line wins, `None` when no
line matches. -/
def MuninPlugin.parse_family (code : List Char) : Option String :=
  firstSome familyLineValue (pySplitlines code)

/-! ## Category parsing: `CATEGORY_REGEX` + blacklist (source lines 95–107,
268–277)

`CATEGORY_REGEX` is
`^(?P<line>.*[^$.]category[^\w\n]+(?P<category>\w+).*)$` with
`re.MULTILINE`, over the whole plugin text.  Because `.` does not match a
newline while the class `[^$.]` does, a match either lies within one line
(with at least one character before `category`), or spans exactly two
lines with the `[^$.]` character being the newline and `category` at the
very start of the second line.  The greedy leading `.*` prefers the
two-line form, and within a line the rightmost viable `category`
occurrence; `findall` then resumes after the end of the match (the end of
its last line). -/

/-- Match `[^\w\n]+(?P<category>\w+)` at the head of `t` (the text right
after a `category` literal), returning the captured word. -/
def categoryTail (t : List Char) : Option (List Char) :=
  match t with
  | [] => none
  | c :: _ =>
    if isWordChar c || c = '\n' then none
    else
      let cap := (t.dropWhile (fun d => !isWordChar d && d ≠ '\n')).takeWhile isWordChar
      if cap.isEmpty then none else some cap

/-- One candidate anchor inside a line: `b` is the character just before
`l`; it must not be `$` or `.`, and `l` must start with `category`. -/
def categoryAt (b : Char) (l : List Char) : Option (List Char) :=
  if b = '$' || b = '.' then none
  else if "category".toList.isPrefixOf l then categoryTail (l.drop 8)
  else none

/-- Rightmost viable anchor within a line: positions further right are
tried first (backtracking order of the leading greedy `.*`). -/
def lineCategoryAux (b : Char) : List Char → Option (List Char)
  | [] => none
  | c :: cs =>
    match lineCategoryAux c cs with
    | some r => some r
    | none => categoryAt b (c :: cs)

/-- Single-line match of `CATEGORY_REGEX` within one line (which then
captures the whole line as the `line` group). -/
def lineCategoryMatch : List Char → Option (List Char)
  | [] => none
  | c :: cs => lineCategoryAux c cs

/-- Two-line match: the `[^$.]` class consumed the newline before `l2`, so
`category` must sit at the very start of `l2`. -/
def twoLineCategoryMatch (l2 : List Char) : Option (List Char) :=
  if "category".toList.isPrefixOf l2 then categoryTail (l2.drop 8) else none

/-- `re.findall` of `CATEGORY_REGEX` over the newline-separated components
of the text, returning `(line group, category group)` pairs in scan
order. -/
def categoryFindall : List (List Char) → List (List Char × List Char)
  | [] => []
  | [l] =>
    match lineCategoryMatch l with
    | some cat => [(l, cat)]
    | none => []
  | l1 :: l2 :: rest =>
    match twoLineCategoryMatch l2 with
    | some cat => (l1 ++ '\n' :: l2, cat) :: categoryFindall rest
    | none =>
      match lineCategoryMatch l1 with
      | some cat => (l1, cat) :: categoryFindall (l2 :: rest)
      | none => categoryFindall (l2 :: rest)

/-- Blacklist regex `(?:label|documentation|\bthe\b|filterwarnings)`. -/
def blacklistNoise (l : List Char) : Bool :=
  containsSub "label".toList l || containsSub "documentation".toList l ||
    hasWordBounded "the".toList none l || containsSub "filterwarnings".toList l

/-- Blacklist regex
`(?:env\.category|/category/|category queries|category\.|force_category)`. -/
def blacklistAmbiguous (l : List Char) : Bool :=
  containsSub "env.category".toList l || containsSub "/category/".toList l ||
    containsSub "category queries".toList l || containsSub "category.".toList l ||
    containsSub "force_category".toList l

/-- Blacklist regex `select.*from.*(?:join|where)` (searched on a single
line, where existence of a match is equivalent to this leftmost-first
scan). -/
def blacklistSql (l : List Char) : Bool :=
  match dropAfterSub "select".toList l with
  | none => false
  | some r1 =>
    match dropAfterSub "from".toList r1 with
    | none => false
    | some r2 => containsSub "join".toList r2 || containsSub "where".toList r2

/-- Blacklist regex `^\s*(?:#|//|/\*)`. -/
def blacklistComment (l : List Char) : Bool :=
  let t := l.dropWhile isSpaceChar
  "#".toList.isPrefixOf t || "//".toList.isPrefixOf t || "/*".toList.isPrefixOf t

/-- Blacklist regex `category.*[&\$]` (searched on a single line). -/
def blacklistVariable (l : List Char) : Bool :=
  match dropAfterSub "category".toList l with
  | none => false
  | some r => r.any (fun c => c = '&' || c = '$')

/-- `CATEGORY_LINE_BLACKLIST_REGEXES`: any of the five noise patterns
matches the candidate line. -/
def categoryLineBlacklisted (l : List Char) : Bool :=
  blacklistNoise l || blacklistAmbiguous l || blacklistSql l ||
    blacklistComment l || blacklistVariable l

/-- `MuninPlugin._parse_categories`: each `findall` match whose `line`
group is a single line and survives the blacklist contributes its
lower-cased `category` group to a set. -/
def MuninPlugin.parse_categories (code : List Char) : Finset String :=
  (categoryFindall (splitNl code)).foldl
    (fun s m =>
      if (pySplitlines m.1).length ≠ 1 then s
      else if categoryLineBlacklisted m.1 then s
      else insert (String.mk (pyLowerChars m.2)) s) ∅

/-! ## Summary parsing: `SUMMARY_REGEX` (source lines 93–94, 198–207)

`^\w+\s+-\s+(Munin )?((Plugin|Script) )?(to )?(?P<summary>.*?)\.?$`,
case-insensitive, searched on single documentation lines.  The optional
prefixes are consumed greedily; the lazy `.*?` followed by `\.?$` makes
the summary be the remainder minus at most one trailing dot. -/

/-- Match `SUMMARY_REGEX` on one line, returning the `summary` group. -/
def summaryLineMatch (l : List Char) : Option (List Char) :=
  let w := l.takeWhile isWordChar
  if w.isEmpty then none
  else
    let r1 := l.drop w.length
    let sp1 := r1.takeWhile isSpaceChar
    if sp1.isEmpty then none
    else
      match r1.drop sp1.length with
      | '-' :: r2 =>
        let sp2 := r2.takeWhile isSpaceChar
        if sp2.isEmpty then none
        else
          let r3 := r2.drop sp2.length
          let r4 := if "munin ".toList.isPrefixOf (pyLowerChars r3) then r3.drop 6 else r3
          let r5 :=
            if "plugin ".toList.isPrefixOf (pyLowerChars r4) then r4.drop 7
            else if "script ".toList.isPrefixOf (pyLowerChars r4) then r4.drop 7
            else r4
          let r6 := if "to ".toList.isPrefixOf (pyLowerChars r5) then r5.drop 3 else r5
          some (if r6.getLast? = some '.' then r6.dropLast else r6)
      | _ => none

/-- `MuninPlugin._guess_summary`: `None` when the documentation is absent
or empty (falsy), otherwise the first match within the first 8 lines. -/
def MuninPlugin.guess_summary (doc : Option String) : Option String :=
  match doc with
  | none => none
  | some d =>
    if d = "" then none
    else firstSome (fun l => (summaryLineMatch l).map String.mk) ((pySplitlines d.toList).take 8)

/-! ## Implementation language: `IMPLEMENTATION_LANGUAGE_REGEXES`
(source lines 122–133, 279–285) -/

/-- `re.search` of `\W<lit>` (and, when `needTail` is set, a trailing
`(\W|$)`): an occurrence of `lit` preceded by a non-word character, and —
for `needTail` — followed by a non-word character or the end.  `prev` is
the character before the current position (`none` at the start of the
string, where `\W` cannot match). -/
def langSearch (lit : List Char) (needTail : Bool) (prev : Option Char) : List Char → Bool
  | [] => false
  | c :: cs =>
    ((match prev with | none => false | some p => !isWordChar p)
      && lit.isPrefixOf (c :: cs)
      && (!needTail ||
          match (c :: cs).drop lit.length with
          | [] => true
          | d :: _ => !isWordChar d))
    || langSearch lit needTail (some c) cs

/-- The ordered interpreter table.  Each entry carries the `(\W|$)` flag
and the literal alternatives (`python2?` is `python2` or `python`, both
with the trailing boundary). -/
def implementationLanguageChecks : List (String × Bool × List (List Char)) :=
  [("bash", true, ["bash".toList]),
   ("ksh", true, ["ksh".toList]),
   ("perl", true, ["perl".toList]),
   ("php", false, ["php".toList]),
   ("python2", true, ["python2".toList, "python".toList]),
   ("python3", false, ["python3".toList]),
   ("ruby", false, ["ruby".toList]),
   ("sh", true, ["sh".toList]),
   ("zsh", true, ["zsh".toList])]

def langCheck (needTail : Bool) (alts : List (List Char)) (line : List Char) : Bool :=
  alts.any (fun a => langSearch a needTail none line)

/-- The first interpreter pattern that matches the given first line. -/
def implementationLanguageOfLine (first : List Char) : Option String :=
  (implementationLanguageChecks.find? (fun e => langCheck e.2.1 e.2.2 first)).map (fun e => e.1)

/-- `MuninPlugin._parse_implementation_language`: the source evaluates
`self.plugin_code.splitlines()[0]`, which raises `IndexError` when the
plugin text has no lines (the empty string). -/
def MuninPlugin.parse_implementation_language (code : List Char) :
    Except PyError (Option String) :=
  match pySplitlines code with
  | [] => .error .indexError
  | first :: _ => .ok (implementationLanguageOfLine first)

/-! ## Path keywords: `KEYWORDS_REMOVAL_REGEXES` (source lines 108–113,
186–196) -/

/-- The removal regex `^node\.d$` as a substitution with `""`: it deletes
a bare `node.d` token (Python `$` also matches just before a trailing
newline, so `node.d\n` degrades to `\n`). -/
def dropBareNodeD (t1 : List Char) : List Char :=
  if t1 = "node.d".toList then []
  else if t1 = "node.d\n".toList then ['\n']
  else t1

/-- Apply the two removal regexes to one path token: `^node\.d\.` strips
that prefix, then `^node\.d$` deletes a bare `node.d` token. -/
def cleanupPathToken (token : List Char) : List Char :=
  dropBareNodeD (if "node.d.".toList.isPrefixOf token then token.drop 7 else token)

/-- `MuninPlugin._get_keywords` applied to an already-computed relative
path: lower-case, split on `/`, clean up each token, drop empty tokens. -/
def MuninPlugin.keywords_of_path (relative_path : String) : List String :=
  (splitOnPred (fun c => c = '/') (pyLowerChars relative_path.toList)).filterMap
    (fun token =>
      if (cleanupPathToken token).isEmpty then none
      else some (String.mk (cleanupPathToken token)))

/-! ## Documentation rendering: `_parse_documentation` and its
post-processing (source lines 134–136, 209–250)

The `perldoc` subprocess is an external collaborator; its outcome is
supplied as an oracle value: `none` models an `OSError` while spawning,
`some (returncode, stdout)` a completed process. -/

/-- Python `str.title()` on the ASCII fragment: an alphabetic character is
upper-cased when the previous character is not alphabetic and lower-cased
otherwise. -/
def pyTitleAux (prevCased : Bool) : List Char → List Char
  | [] => []
  | c :: cs =>
    (if isAsciiAlpha c then (if prevCased then pyLowerChar c else pyUpperChar c) else c)
      :: pyTitleAux (isAsciiAlpha c) cs

def pyTitleChars (l : List Char) : List Char := pyTitleAux false l

/-- `MuninPlugin._rewrite_match_capitalization` on one token:
`CAPITALIZATION_UPPER` words are forced upper, `CAPITALIZATION_LOWER`
words forced lower, anything else title-cased. -/
def capitalizeToken (t : List Char) : List Char :=
  if pyUpperChars t = "IP".toList ∨ pyUpperChars t = "TCP".toList ∨
      pyUpperChars t = "UDP".toList then pyUpperChars t
  else if pyLowerChars t = "a".toList ∨ pyLowerChars t = "the".toList ∨
      pyLowerChars t = "in".toList ∨ pyLowerChars t = "for".toList ∨
      pyLowerChars t = "to".toList ∨ pyLowerChars t = "and".toList then pyLowerChars t
  else pyTitleChars t

def joinWithSpace : List (List Char) → List Char
  | [] => []
  | [t] => t
  | t :: ts => t ++ ' ' :: joinWithSpace ts

def joinWithNl : List (List Char) → List Char
  | [] => []
  | [t] => t
  | t :: ts => t ++ '\n' :: joinWithNl ts

/-- `_rewrite_match_capitalization` on a whole heading match: split on
whitespace, rewrite each token, re-join with single spaces. -/
def rewriteMatchCapitalization (l : List Char) : List Char :=
  joinWithSpace ((pySplitWs l).map capitalizeToken)

/-- `HEADING_REGEX.sub`: every line that starts with `#` is replaced by
its capitalization rewrite. -/
def rewriteHeadings (l : List Char) : List Char :=
  joinWithNl ((splitNl l).map (fun line =>
    match line with
    | '#' :: _ => rewriteMatchCapitalization line
    | _ => line))

/-- `re.sub(r"^#", "##", ..., flags=re.MULTILINE)`: prepend one `#` to
every line that starts with `#`. -/
def demoteHeadings (l : List Char) : List Char :=
  joinWithNl ((splitNl l).map (fun line =>
    match line with
    | '#' :: _ => '#' :: line
    | _ => line))

/-- The post-processing applied to a successful `perldoc` output: strip,
fix all-uppercase headings, demote every heading one level. -/
def postProcessDocumentation (out : List Char) : List Char :=
  demoteHeadings (rewriteHeadings (pyStripChars out))

/-- `MuninPlugin._parse_documentation`, instrumented with the number of
renderer invocations: when the text has no `=head1` marker the renderer is
not spawned at all; otherwise one invocation happens and a spawn failure
or a non-zero exit degrades the documentation to `None`. -/
def MuninPlugin.parse_documentation_count (code : List Char)
    (renderer : Option (Int × String)) : Option String × Nat :=
  if !containsSub "=head1".toList code then (none, 0)
  else
    match renderer with
    | none => (none, 1)
    | some (rc, out) =>
      if rc ≠ 0 then (none, 1)
      else (some (String.mk (postProcessDocumentation out.toList)), 1)

/-- `MuninPlugin._parse_documentation` (the resulting field value). -/
def MuninPlugin.parse_documentation (code : List Char)
    (renderer : Option (Int × String)) : Option String :=
  (MuninPlugin.parse_documentation_count code renderer).1

/-! ## The `MuninPlugin` record and its `initialize` step
(source lines 138–184)

External effects are supplied as oracle values:
* `World.fileContent` is the result of `open(...).read().decode(...)`
  (`none` models an `OSError` while reading the plugin file);
* `World.renderer` is the outcome of the `perldoc` subprocess;
* `RepoCtx` carries the two answers the owning repository gives during
  extraction: `get_relative_path(os.path.dirname(plugin_filename))` and
  `get_file_timestamp(plugin_filename)`. -/

/-- The answers of the owning `MuninPluginRepository` used during
extraction. -/
structure RepoCtx where
  relativeDirPath : String
  fileTimestamp : Option Int
deriving DecidableEq

/-- The external effects consumed by one `initialize` run. -/
structure World where
  fileContent : Option String
  renderer : Option (Int × String)
deriving DecidableEq

/-- The `MuninPlugin` instance state.  Attributes that Python leaves
unassigned until `initialize` are modelled by their default values here;
the separate attribute-name model below tracks assignment itself. -/
structure MuninPlugin where
  plugin_filename : String
  repository_source : Option RepoCtx
  name : String
  implementation_language : Option String
  example_graphs : List MuninPluginExampleGraph
  is_initialized : Bool
  plugin_code : Option String := none
  documentation : Option String := none
  family : Option String := none
  capabilities : Option (List String) := none
  categories : Finset String := ∅
  changed_timestamp : Option Int := none
  path_keywords : List String := []
  summary : Option String := none
deriving DecidableEq

/-- `os.path.basename`: the part after the last `/`. -/
def pathBasename (s : String) : String :=
  String.mk (((splitOnPred (fun c => c = '/') s.toList).getLast?).getD [])

/-- The `OPTIONAL_PLUGIN_FILENAME_SUFFIXES` loop of `__init__`: strip a
trailing `.in` from the name. -/
def stripPluginSuffixes (n : List Char) : List Char :=
  if ".in".toList.isSuffixOf n then n.take (n.length - 3) else n

/-- `MuninPlugin.__init__` (the example graphs, found on the filesystem by
`_find_images`, are passed in explicitly). -/
def MuninPlugin.construct (plugin_filename : String) (repository_source : Option RepoCtx)
    (name : Option String) (language : Option String)
    (example_graphs : List MuninPluginExampleGraph) : MuninPlugin :=
  let n0 := match name with | some n => n | none => pathBasename plugin_filename
  { plugin_filename := plugin_filename
    repository_source := repository_source
    name := String.mk (stripPluginSuffixes n0.toList)
    implementation_language := language
    example_graphs := example_graphs
    is_initialized := false }

/-- The attribute assignments of `MuninPlugin.initialize` from
`self.plugin_code = ...` up to `self.summary = ...`.  In the source these
happen sequentially; the only steps of `initialize` that can raise are the
initial file read (before any attribute is assigned) and
`_parse_implementation_language` (the final derivation step), and each
assignment here is a pure function of the oracles and the plugin, so the
run is modelled as this single batched record update. -/
def MuninPlugin.assignExtractedFields (w : World) (codeStr : String) (p : MuninPlugin) :
    MuninPlugin :=
  let code := codeStr.toList
  let doc := MuninPlugin.parse_documentation code w.renderer
  { p with
    plugin_code := some codeStr
    documentation := doc
    family := MuninPlugin.parse_family code
    capabilities := MuninPlugin.parse_capabilities code
    categories := MuninPlugin.parse_categories code
    changed_timestamp :=
      match p.repository_source with
      | some r => r.fileTimestamp
      | none => none
    path_keywords :=
      MuninPlugin.keywords_of_path
        (match p.repository_source with
         | some r => r.relativeDirPath
         | none => "")
    summary := MuninPlugin.guess_summary doc }

/-- `MuninPlugin.initialize` (named `runInit` here).  The result is the
plugin state after the call together with the exception escaping it, if
any. -/
def MuninPlugin.runInit (w : World) (p : MuninPlugin) : MuninPlugin × Option PyError :=
  if p.is_initialized then (p, none)
  else
    match w.fileContent with
    | none => (p, some .ioError)
    | some codeStr =>
      let p1 := MuninPlugin.assignExtractedFields w codeStr p
      if p1.implementation_language.isSome then
        ({ p1 with is_initialized := true }, none)
      else
        match MuninPlugin.parse_implementation_language codeStr.toList with
        | .error e => (p1, some e)
        | .ok lang => ({ p1 with implementation_language := lang, is_initialized := true }, none)

/-- One job of `worker_initialize_plugins` (source lines 654–670): any
exception escaping the plugin's `initialize` is caught, logged and the
plugin is dropped (not forwarded to the destination queue). -/
def workerProcessPlugin (w : World) (p : MuninPlugin) : Option MuninPlugin :=
  match MuninPlugin.runInit w p with
  | (p1, none) => some p1
  | (_, some _) => none

/-! ## Plugin discovery: `MuninPluginRepository.get_plugins`
(source lines 433–460) -/

/-- A file as seen by the walk: its name and the `st_mode` delivered by
`os.stat` (`none` models an `OSError` raised by the stat call). -/
structure FileEntry where
  fname : String
  statMode : Option Nat
deriving DecidableEq

/-- A directory tree rooted at a named directory. -/
inductive FsTree where
  | dir (dname : String) (files : List FileEntry) (subdirs : List FsTree)

mutual

/-- `os.walk` (top-down): the directory itself first, then the walks of
its subdirectories in order.  Each element is `(dirpath, filenames)`. -/
def walk (pre : String) : FsTree → List (String × List FileEntry)
  | .dir dname files subdirs =>
    let path := if pre = "" then dname else pre ++ "/" ++ dname
    (path, files) :: walkList path subdirs

def walkList (pre : String) : List FsTree → List (String × List FileEntry)
  | [] => []
  | t :: ts => walk pre t ++ walkList pre ts

end

/-- Classification of one visited file.  The `os.stat` call is attempted
first; an `OSError` is swallowed (`except OSError: pass`) after which the
stale `status` of the most recent successful stat is used.  If no file was
ever stat-ed successfully the `status` variable is unbound and the access
raises `UnboundLocalError`.  `st` is the current value of `status`. -/
def visitFile (rc : RepoCtx) (st : Option Nat) (dirpath : String) (f : FileEntry) :
    Except PyError (Option MuninPlugin × Option Nat) :=
  let st2 := match f.statMode with | some m => some m | none => st
  match st2 with
  | none => .error .unboundLocalError
  | some mode =>
    let full_path := dirpath ++ "/" ++ f.fname
    let fl := f.fname.toList
    if Nat.land mode 64 > 0 then
      .ok (some (MuninPlugin.construct full_path (some rc) none none []), st2)
    else if ".in".toList.isSuffixOf fl then
      .ok (some (MuninPlugin.construct full_path (some rc)
        (some (String.mk (fl.take (fl.length - 3)))) none []), st2)
    else if ".c".toList.isSuffixOf fl then
      .ok (some (MuninPlugin.construct full_path (some rc)
        (some (String.mk (fl.take (fl.length - 2)))) (some "c") []), st2)
    else if ".cpp".toList.isSuffixOf fl then
      .ok (some (MuninPlugin.construct full_path (some rc)
        (some (String.mk (fl.take (fl.length - 4)))) (some "cpp") []), st2)
    else
      .ok (none, st2)

/-- The inner `for filename in filenames` loop: plugins yielded from this
directory, the `status` value after the loop, and the exception aborting
the generator, if any (plugins yielded before the exception have already
reached the consumer). -/
def visitFiles (rc : RepoCtx) (dirpath : String) :
    List FileEntry → Option Nat → List MuninPlugin × Option Nat × Option PyError
  | [], st => ([], st, none)
  | f :: fs, st =>
    match visitFile rc st dirpath f with
    | .error e => ([], st, some e)
    | .ok (op, st2) =>
      let (rest, st3, e) := visitFiles rc dirpath fs st2
      ((match op with | some pl => pl :: rest | none => rest), st3, e)

/-- The `for dirpath, dirnames, filenames in os.walk(...)` loop: a
directory whose basename is the example-graph folder name or
`node.d.debug` has its own files skipped by `continue` — but `os.walk`
still descends into its subdirectories, because `dirnames` is never
pruned. -/
def getPluginsAux (rc : RepoCtx) :
    List (String × List FileEntry) → Option Nat → List MuninPlugin × Option PyError
  | [], _ => ([], none)
  | (dirpath, files) :: rest, st =>
    if pathBasename dirpath = "example-graphs" ∨ pathBasename dirpath = "node.d.debug" then
      getPluginsAux rc rest st
    else
      match visitFiles rc dirpath files st with
      | (ps, st2, none) =>
        let (rest2, e) := getPluginsAux rc rest st2
        (ps ++ rest2, e)
      | (ps, _, some e) => (ps, some e)

/-- `MuninPluginRepository.get_plugins` over an in-memory directory tree:
all plugins yielded before a possible exception, plus that exception. -/
def MuninPluginRepository.get_plugins (rc : RepoCtx) (root : FsTree) :
    List MuninPlugin × Option PyError :=
  getPluginsAux rc (walk "" root) none

/-! ## Instance-attribute bookkeeping for `get_details` and `__str__`
(source lines 138–147, 290–307)

Python instance attributes exist only once assigned; reading a name that
was never assigned raises `AttributeError`.  The lists below transcribe
every `self.<name> = ...` statement of the class `MuninPlugin` and the
instance attributes its two reporting operations read, in evaluation
order. -/

/-- Instance attributes assigned by `MuninPlugin.__init__`. -/
def initAttrs : List String :=
  ["plugin_filename", "repository_source", "name", "implementation_language",
   "example_graphs", "_is_initialized"]

/-- Instance attributes assigned by `MuninPlugin.initialize` (no other
method of the class assigns any attribute). -/
def initializeAttrs : List String :=
  ["plugin_code", "documentation", "family", "capabilities", "categories",
   "changed_timestamp", "path_keywords", "summary", "implementation_language",
   "_is_initialized"]

/-- The instance attributes present on a plugin, depending on whether its
extraction has completed. -/
def pluginAttrs (initialized : Bool) : List String :=
  initAttrs ++ if initialized then initializeAttrs else []

/-- Sequential attribute reads: the first name not among the assigned
attributes raises `AttributeError` carrying that name. -/
def readAttrs (assigned : List String) : List String → Except String Unit
  | [] => .ok ()
  | a :: as => if a ∈ assigned then readAttrs assigned as else .error a

/-- The instance attributes `MuninPlugin.get_details` reads, in the
evaluation order of its dict literal (`get_unexpected_categories` reads
`categories` again; `dict(self._image_filenames)` reads
`_image_filenames`). -/
def getDetailsReads : List String :=
  ["documentation", "family", "capabilities", "categories", "path_keywords",
   "categories", "_image_filenames", "changed_timestamp"]

/-- `MuninPlugin.get_details`, reduced to its attribute lookups. -/
def MuninPlugin.get_details_lookup (initialized : Bool) : Except String Unit :=
  readAttrs (pluginAttrs initialized) getDetailsReads

/-- The instance attributes `MuninPlugin.__str__` reads: the truth test on
`self._image_filenames` happens before anything else. -/
def strReads : List String := ["_image_filenames", "name"]

/-- `MuninPlugin.__str__`, reduced to its attribute lookups. -/
def MuninPlugin.str_lookup (initialized : Bool) : Except String Unit :=
  readAttrs (pluginAttrs initialized) strReads

/-! ## Concrete evaluations of the embedding

Closed evaluations of the embedded operations on small inputs, matching
the behaviour of the CPython functions and regular expressions they
transcribe. -/

section ConcreteEvaluations

example : getSortKey "day" = (-4, "") := by decide
example : getSortKey "week" = (100, "week") := by decide
example : getSortKey "month" = (-2, "") := by decide
example : getSortKey "12" = (12, "") := by decide
example : keyLt "day" "month" = true := by decide
example : keyLt "month" "week" = true := by decide
example : keyLt "week" "month" = false := by decide
example : keyLt "0" "week" = true := by decide
example : pyIntChars " 1_0 ".toList = some 10 := by decide
example : pyIntChars "1__0".toList = none := by decide
example : pySplitlines "a\n".toList = ["a".toList] := by decide
example : pySplitlines "".toList = [] := by decide
example : pySplitlines "\n".toList = [[]] := by decide
example : pySplitWs "  a b ".toList = ["a".toList, "b".toList] := by decide

example : MuninPlugin.parse_capabilities "#%# capabilities = snmpauto suggest".toList =
    some ["snmpauto", "suggest"] := by decide

example : MuninPlugin.parse_capabilities "x #%# capabilities = a #%# capabilities = b".toList =
    some ["b"] := by decide

example : MuninPlugin.parse_capabilities "#%# capabilities =".toList = none := by decide

example : MuninPlugin.parse_capabilities "#%# capabilities =   ".toList = some [] := by decide

example : MuninPlugin.parse_family "abc\n# #%# family = Auto \nz".toList = some "auto" := by
  decide

example : MuninPlugin.parse_family "".toList = none := by decide

example : MuninPlugin.parse_categories "# category = db".toList = ∅ := by decide

example : MuninPlugin.parse_categories "graph_category db".toList = {"db"} := by decide

example : MuninPlugin.parse_categories "force_category db".toList = ∅ := by decide

example : MuninPlugin.parse_categories "graph_category DB\ngraph_category db".toList =
    {"db"} := by decide

example : MuninPlugin.parse_categories "foo\ncategory: db".toList = ∅ := by decide

example : MuninPlugin.parse_categories "category: db".toList = ∅ := by decide

example : categoryFindall (splitNl "a\nb\ncategory: x\ncategory: y".toList) =
    [("b\ncategory: x".toList, "x".toList)] := by decide

example : MuninPlugin.parse_categories "graph_category one two\nplain".toList = {"one"} := by
  decide

example : MuninPlugin.parse_categories "echo select x from t where y; graph_category db".toList =
    ∅ := by decide

example : MuninPlugin.parse_categories "graph_category the db".toList = ∅ := by decide

example : (summaryLineMatch "cpu - Munin Plugin to monitor CPU usage.".toList).map String.mk =
    some "monitor CPU usage" := by decide

example : (summaryLineMatch "foo - graph things".toList).map String.mk =
    some "graph things" := by decide

example : (summaryLineMatch "foo - Script to do. stuff.".toList).map String.mk =
    some "do. stuff" := by decide

example : summaryLineMatch "no dash here".toList = none := by decide

example : MuninPlugin.parse_implementation_language "#!/bin/bash\nx".toList =
    .ok (some "bash") := by decide

example : MuninPlugin.parse_implementation_language "#!/usr/bin/python3".toList =
    .ok (some "python3") := by decide

example : MuninPlugin.parse_implementation_language "#!/usr/bin/python".toList =
    .ok (some "python2") := by decide

example : MuninPlugin.parse_implementation_language "#!/bin/sh".toList =
    .ok (some "sh") := by decide

example : MuninPlugin.parse_implementation_language "#!/usr/bin/env perl".toList =
    .ok (some "perl") := by decide

example : MuninPlugin.parse_implementation_language "bash".toList = .ok none := by decide

example : MuninPlugin.parse_implementation_language "".toList = .error .indexError := by decide

example : MuninPlugin.keywords_of_path "node.d.linux/cpu" = ["linux", "cpu"] := by decide

example : MuninPlugin.keywords_of_path "node.d/cpu" = ["cpu"] := by decide

example : MuninPlugin.keywords_of_path "NODE.D.AIX//x" = ["aix", "x"] := by decide

example : MuninPlugin.keywords_of_path "" = [] := by decide

example : MuninPlugin.keywords_of_path "node.dx/y" = ["node.dx", "y"] := by decide

example : String.mk (postProcessDocumentation "  # NAME IS THE IP\ntext\n".toList) =
    "## Name Is the IP\ntext" := by decide

example : MuninPlugin.parse_documentation_count "no marker".toList (some (0, "x")) =
    (none, 0) := by decide

example : MuninPlugin.parse_documentation_count "x =head1 y".toList none = (none, 1) := by
  decide

example : MuninPlugin.parse_documentation_count "x =head1 y".toList (some (2, "ignored")) =
    (none, 1) := by decide

example : pathBasename "a/b/example-graphs" = "example-graphs" := by decide

example : MuninPlugin.construct "p/dir/cpu_.in" none none none [] =
    { plugin_filename := "p/dir/cpu_.in", repository_source := none, name := "cpu_",
      implementation_language := none, example_graphs := [], is_initialized := false } := by
  decide

example :
    walk "" (.dir "root" [] [.dir "a" [⟨"f", some 0⟩] [], .dir "b" [] []]) =
      [("root", []), ("root/a", [⟨"f", some 0⟩]), ("root/b", [])] := by decide

example :
    MuninPluginRepository.get_plugins ⟨"", none⟩
        (.dir "r" [⟨"x.in", some 0⟩, ⟨"y", none⟩, ⟨"run", some 493⟩, ⟨"z.cpp", some 0⟩] []) =
      ([MuninPlugin.construct "r/x.in" (some ⟨"", none⟩) (some "x") none [],
        MuninPlugin.construct "r/run" (some ⟨"", none⟩) none none [],
        MuninPlugin.construct "r/z.cpp" (some ⟨"", none⟩) (some "z") (some "cpp") []],
       none) := by decide

example :
    MuninPluginRepository.get_plugins ⟨"", none⟩ (.dir "r" [⟨"c", none⟩, ⟨"d", some 493⟩] []) =
      ([], some .unboundLocalError) := by decide

example :
    MuninPlugin.runInit
        ⟨some "#!/bin/sh\n#%# family = Auto\n#%# capabilities = autoconf suggest\ngraph_category db\n",
         none⟩
        (MuninPlugin.construct "p/node.d.linux/cpu/plug" (some ⟨"node.d.linux/cpu", some 7⟩)
          none none []) =
      ({ plugin_filename := "p/node.d.linux/cpu/plug",
         repository_source := some ⟨"node.d.linux/cpu", some 7⟩, name := "plug",
         implementation_language := some "sh", example_graphs := [], is_initialized := true,
         plugin_code :=
           some "#!/bin/sh\n#%# family = Auto\n#%# capabilities = autoconf suggest\ngraph_category db\n",
         documentation := none, family := some "auto",
         capabilities := some ["autoconf", "suggest"], categories := {"db"},
         changed_timestamp := some 7, path_keywords := ["linux", "cpu"], summary := none },
       none) := by decide

example :
    MuninPlugin.runInit ⟨some "", none⟩ (MuninPlugin.construct "p/empty" none none none []) =
      ({ plugin_filename := "p/empty", repository_source := none, name := "empty",
         implementation_language := none, example_graphs := [], is_initialized := false,
         plugin_code := some "", documentation := none, family := none, capabilities := none,
         categories := ∅, changed_timestamp := none, path_keywords := [], summary := none },
       some .indexError) := by decide

example :
    workerProcessPlugin ⟨some "", none⟩ (MuninPlugin.construct "p/empty" none none none []) =
      none := by decide

example : MuninPlugin.runInit ⟨none, none⟩ (MuninPlugin.construct "p/x" none none none []) =
    (MuninPlugin.construct "p/x" none none none [], some .ioError) := by decide

end ConcreteEvaluations

/-! ## Helper lemmas -/

theorem firstSome_append_of_none {α β : Type} (f : α → Option β) (pre rest : List α)
    (h : ∀ a ∈ pre, f a = none) : firstSome f (pre ++ rest) = firstSome f rest := by
  induction pre with
  | nil => rfl
  | cons a as ih =>
    simp only [List.cons_append, firstSome, h a (List.mem_cons_self a as)]
    exact ih (fun x hx => h x (List.mem_cons_of_mem a hx))

theorem firstSome_eq_none {α β : Type} (f : α → Option β) (l : List α)
    (h : ∀ a ∈ l, f a = none) : firstSome f l = none := by
  induction l with
  | nil => rfl
  | cons a as ih =>
    simp only [firstSome, h a (List.mem_cons_self a as)]
    exact ih (fun x hx => h x (List.mem_cons_of_mem a hx))

/-! ## Claims -/

/-- Shared fixture: a plugin whose file reads back as the empty string
(and no preset implementation language). -/
def emptyCodeWorld : World := ⟨some "", none⟩

/-- Shared fixture: a plugin constructed by discovery from a file path
alone. -/
def emptyCodePlugin : MuninPlugin := MuninPlugin.construct "plugins/empty" none none none []

/-- C1: the claim states that `MuninPlugin.initialize` never raises to its
caller and that a failure in one extraction step degrades only that step's
field.  The code violates this: on a plugin whose raw text is empty (and
with no preset language), `_parse_implementation_language` evaluates
`splitlines()[0]` and raises `IndexError`, which escapes `initialize`,
leaves the plugin unfinished (`_is_initialized` stays false), and makes
`worker_initialize_plugins` drop the whole plugin instead of degrading
just the language field. -/
theorem C1_initialize_raises_on_empty_source :
    (MuninPlugin.runInit emptyCodeWorld emptyCodePlugin).2 = some .indexError
    ∧ (MuninPlugin.runInit emptyCodeWorld emptyCodePlugin).1.is_initialized = false
    ∧ workerProcessPlugin emptyCodeWorld emptyCodePlugin = none := by decide

/-- C2: the claim states the fixed order day < week < month < year ahead
of all numeric keys.  The code violates this for the key `"week"`: the
special-period table misspells its entry as `"weeky"` (contradicting the
docstring right above it and the `-(day|week|month|year|\d+).png` key
regex), so `"week"` falls through to the generic `(100, "week")` sort key
and sorts after `month`, `year` and every numeric key. -/
theorem C2_week_key_sorts_last :
    getSortKey "week" = (100, "week")
    ∧ keyLt "week" "month" = false
    ∧ keyLt "month" "week" = true
    ∧ keyLt "year" "week" = true
    ∧ keyLt "0" "week" = true
    ∧ keyLt "day" "week" = true
    ∧ MuninPluginExampleGraph.lt ⟨"month", "p-month.png"⟩ ⟨"week", "p-week.png"⟩ = true
    ∧ MuninPluginExampleGraph.lt ⟨"week", "p-week.png"⟩ ⟨"month", "p-month.png"⟩ = false := by
  decide

/-- C5: a plugin text with no `=head1` documentation marker makes the
documentation step return absent with zero renderer invocations,
regardless of the renderer oracle. -/
theorem C5_no_marker_skips_renderer (code : List Char) (renderer : Option (Int × String))
    (h : containsSub "=head1".toList code = false) :
    MuninPlugin.parse_documentation_count code renderer = (none, 0) := by
  unfold MuninPlugin.parse_documentation_count
  rw [h]
  rfl

/-- Witness for C5 at a concrete shell-plugin text. -/
theorem C5_no_marker_skips_renderer_witness :
    containsSub "=head1".toList "#!/bin/sh\necho hello".toList = false
    ∧ MuninPlugin.parse_documentation_count "#!/bin/sh\necho hello".toList
        (some (0, "IGNORED")) = (none, 0) :=
  ⟨by decide, C5_no_marker_skips_renderer "#!/bin/sh\necho hello".toList
    (some (0, "IGNORED")) (by decide)⟩

/-- C9: no operation of the class `MuninPlugin` ever assigns the instance
attribute `_image_filenames` (the constructor stores the example graphs
under `example_graphs`), yet both `get_details` and `__str__` read it, so
neither can return normally — whether extraction has completed or not
(`get_details` on an uninitialized plugin already fails at its first read,
`documentation`). -/
theorem assignExtractedFields_is_initialized (w : World) (c : String) (p : MuninPlugin) :
    (MuninPlugin.assignExtractedFields w c p).is_initialized = p.is_initialized := rfl

theorem assignExtractedFields_language (w : World) (c : String) (p : MuninPlugin) :
    (MuninPlugin.assignExtractedFields w c p).implementation_language =
      p.implementation_language := rfl

/-- Re-running the batched assignments overwrites every field with the
same value: they depend only on the oracles and on fields the assignments
do not touch. -/
theorem assignExtractedFields_idem (w : World) (c : String) (p : MuninPlugin) :
    MuninPlugin.assignExtractedFields w c (MuninPlugin.assignExtractedFields w c p) =
      MuninPlugin.assignExtractedFields w c p := rfl

/-- C4: extraction is idempotent.  A successful `initialize` sets
`_is_initialized`, so the second call is a no-op; a failed one (file read
error, or the `IndexError` of the language step) leaves the flag unset,
and the re-run recomputes exactly the same attribute values from the same
file and oracles and stops at the same point — in every case the second
invocation returns the state and outcome of the first. -/
theorem C4_initialize_idempotent (w : World) (p : MuninPlugin) :
    MuninPlugin.runInit w (MuninPlugin.runInit w p).1 = MuninPlugin.runInit w p := by
  by_cases hp : p.is_initialized
  · have h1 : MuninPlugin.runInit w p = (p, none) := by
      unfold MuninPlugin.runInit; rw [if_pos hp]
    rw [h1]; exact h1
  · cases hw : w.fileContent with
    | none =>
      have h1 : MuninPlugin.runInit w p = (p, some .ioError) := by
        unfold MuninPlugin.runInit; rw [if_neg hp, hw]
      rw [h1]; exact h1
    | some codeStr =>
      by_cases hl : (MuninPlugin.assignExtractedFields w codeStr p).implementation_language.isSome
      · have h1 : MuninPlugin.runInit w p =
            ({ MuninPlugin.assignExtractedFields w codeStr p with is_initialized := true },
             none) := by
          unfold MuninPlugin.runInit
          rw [if_neg hp, hw]
          simp only [hl, if_true]
        rw [h1]
        unfold MuninPlugin.runInit
        rw [if_pos rfl]
      · cases hpl : MuninPlugin.parse_implementation_language codeStr.toList with
        | error e =>
          have h1 : MuninPlugin.runInit w p =
              (MuninPlugin.assignExtractedFields w codeStr p, some e) := by
            unfold MuninPlugin.runInit
            rw [if_neg hp, hw]
            simp only [hl, hpl]
            simp
          rw [h1]
          unfold MuninPlugin.runInit
          rw [if_neg (by rw [assignExtractedFields_is_initialized]; exact hp), hw]
          simp only [assignExtractedFields_idem, hl, hpl]
          simp
        | ok lang =>
          have h1 : MuninPlugin.runInit w p =
              ({ MuninPlugin.assignExtractedFields w codeStr p with
                  implementation_language := lang, is_initialized := true }, none) := by
            unfold MuninPlugin.runInit
            rw [if_neg hp, hw]
            simp only [hl, hpl]
            simp
          rw [h1]
          unfold MuninPlugin.runInit
          rw [if_pos rfl]

/-- C7: the first line carrying the `#%# capabilities =` marker determines
the capability sequence — on `#%# capabilities = snmpauto suggest` it is
exactly `("snmpauto", "suggest")`, in source order and lower-cased — and a
text none of whose lines carries the marker yields `None` for
capabilities (and likewise for the family marker), not an error. -/
theorem C7_capabilities_and_family_markers :
    (∀ (code : List Char) (pre post : List (List Char)),
        pySplitlines code = pre ++ "#%# capabilities = snmpauto suggest".toList :: post →
        (∀ l ∈ pre, capabilitiesLineValue l = none) →
        MuninPlugin.parse_capabilities code = some ["snmpauto", "suggest"])
    ∧ (∀ code : List Char, (∀ l ∈ pySplitlines code, capabilitiesLineValue l = none) →
        MuninPlugin.parse_capabilities code = none)
    ∧ (∀ code : List Char, (∀ l ∈ pySplitlines code, familyLineValue l = none) →
        MuninPlugin.parse_family code = none) := by
  refine ⟨?_, ?_, ?_⟩
  · intro code pre post hsplit hpre
    unfold MuninPlugin.parse_capabilities
    rw [hsplit, firstSome_append_of_none _ _ _ hpre]
    have hval : capabilitiesLineValue "#%# capabilities = snmpauto suggest".toList =
        some ["snmpauto", "suggest"] := by decide
    unfold firstSome
    rw [hval]
  · intro code h
    exact firstSome_eq_none _ _ h
  · intro code h
    exact firstSome_eq_none _ _ h

/-- Witness for C7: a marker line preceded by a non-marker line, and a
marker-free text, at concrete inputs. -/
theorem C7_capabilities_and_family_markers_witness :
    MuninPlugin.parse_capabilities "#!/bin/sh\n#%# capabilities = snmpauto suggest\nx".toList =
      some ["snmpauto", "suggest"]
    ∧ MuninPlugin.parse_capabilities "#!/bin/sh\necho hi".toList = none
    ∧ MuninPlugin.parse_family "#!/bin/sh\necho hi".toList = none :=
  ⟨C7_capabilities_and_family_markers.1 _ ["#!/bin/sh".toList] ["x".toList]
      (by decide) (by decide),
   C7_capabilities_and_family_markers.2.1 _ (by decide),
   C7_capabilities_and_family_markers.2.2 _ (by decide)⟩

theorem splitOnPred_ne_nil (p : Char → Bool) (l : List Char) : splitOnPred p l ≠ [] := by
  cases l with
  | nil => simp [splitOnPred]
  | cons a as =>
    unfold splitOnPred
    cases h : splitOnPred p as with
    | nil => simp
    | cons u us => by_cases hp : p a <;> simp [hp]

theorem splitOnPred_cons_eq (p : Char → Bool) (a : Char) (as u : List Char)
    (us : List (List Char)) (h : splitOnPred p as = u :: us) :
    splitOnPred p (a :: as) = if p a then [] :: u :: us else (a :: u) :: us := by
  unfold splitOnPred
  rw [h]

/-- Every character of a component of `splitOnPred` is a character of the
input. -/
theorem mem_splitOnPred_subset {p : Char → Bool} {l t : List Char}
    (ht : t ∈ splitOnPred p l) : ∀ c ∈ t, c ∈ l := by
  induction l generalizing t with
  | nil =>
    simp [splitOnPred] at ht
    simp [ht]
  | cons a as ih =>
    cases h : splitOnPred p as with
    | nil => exact absurd h (splitOnPred_ne_nil p as)
    | cons u us =>
      rw [splitOnPred_cons_eq p a as u us h] at ht
      by_cases hp : p a
      · rw [if_pos hp] at ht
        rcases List.mem_cons.mp ht with h1 | h1
        · simp [h1]
        · intro c hc
          exact List.mem_cons_of_mem a (ih (h ▸ h1) c hc)
      · rw [if_neg hp] at ht
        rcases List.mem_cons.mp ht with h1 | h1
        · subst h1
          intro c hc
          rcases List.mem_cons.mp hc with h2 | h2
          · simp [h2]
          · exact List.mem_cons_of_mem a
              (ih (h ▸ List.mem_cons_self u us) c h2)
        · intro c hc
          exact List.mem_cons_of_mem a
            (ih (h ▸ List.mem_cons_of_mem u h1) c hc)

theorem isAsciiUpper_pyLowerChar (c : Char) : isAsciiUpper (pyLowerChar c) = false := by
  unfold pyLowerChar
  split
  · rename_i h
    unfold isAsciiUpper
    rw [mkChar_toNat]
    simp only [decide_eq_false_iff_not]
    omega
  · rename_i h
    unfold isAsciiUpper
    simp only [decide_eq_false_iff_not]
    exact h

theorem mem_pyLowerChars_not_upper {l : List Char} {c : Char} (h : c ∈ pyLowerChars l) :
    isAsciiUpper c = false := by
  obtain ⟨d, _, rfl⟩ := List.mem_map.mp h
  exact isAsciiUpper_pyLowerChar d

theorem dropBareNodeD_chars {t : List Char} {c : Char} (h : c ∈ dropBareNodeD t) :
    c ∈ t ∨ c = '\n' := by
  unfold dropBareNodeD at h
  split at h
  · simp at h
  · split at h
    · simp at h
      right
      exact h
    · left
      exact h

/-- The characters of a cleaned-up path token come from the token — except
in the `node.d` + trailing-newline corner, where the survivor is the
newline itself. -/
theorem cleanupPathToken_chars {t : List Char} {c : Char} (h : c ∈ cleanupPathToken t) :
    c ∈ t ∨ c = '\n' := by
  unfold cleanupPathToken at h
  rcases dropBareNodeD_chars h with h1 | h1
  · split at h1
    · left
      exact (List.drop_sublist 7 t).subset h1
    · left
      exact h1
  · right
    exact h1

/-- C8: path-keyword derivation maps `node.d.linux/cpu` to
`("linux", "cpu")` and `node.d/cpu` to `("cpu",)`; and for every relative
path the resulting tokens are non-empty and contain no upper-case ASCII
letter (the path is lower-cased before splitting on `/`). -/
theorem C8_path_keyword_derivation :
    MuninPlugin.keywords_of_path "node.d.linux/cpu" = ["linux", "cpu"]
    ∧ MuninPlugin.keywords_of_path "node.d/cpu" = ["cpu"]
    ∧ (∀ (path : String) (t : String), t ∈ MuninPlugin.keywords_of_path path → t ≠ "")
    ∧ (∀ (path : String) (t : String), t ∈ MuninPlugin.keywords_of_path path →
        ∀ c ∈ t.toList, isAsciiUpper c = false) := by
  refine ⟨by decide, by decide, ?_, ?_⟩
  · intro path t ht
    unfold MuninPlugin.keywords_of_path at ht
    obtain ⟨tok, htok, hmk⟩ := List.mem_filterMap.mp ht
    by_cases he : (cleanupPathToken tok).isEmpty
    · rw [if_pos he] at hmk
      exact Option.noConfusion hmk
    · rw [if_neg he] at hmk
      injection hmk with hmk
      subst hmk
      intro hcon
      have hnil : cleanupPathToken tok = [] := congrArg String.toList hcon
      rw [hnil] at he
      exact he rfl
  · intro path t ht c hc
    unfold MuninPlugin.keywords_of_path at ht
    obtain ⟨tok, htok, hmk⟩ := List.mem_filterMap.mp ht
    by_cases he : (cleanupPathToken tok).isEmpty
    · rw [if_pos he] at hmk
      exact Option.noConfusion hmk
    · rw [if_neg he] at hmk
      injection hmk with hmk
      subst hmk
      rcases cleanupPathToken_chars (show c ∈ cleanupPathToken tok from hc) with h1 | h1
      · exact mem_pyLowerChars_not_upper (mem_splitOnPred_subset htok c h1)
      · subst h1
        decide

/-- Witness for C8 at the token `"linux"` of the path
`"node.d.linux/cpu"`. -/
theorem C8_path_keyword_derivation_witness :
    ("linux" : String) ∈ MuninPlugin.keywords_of_path "node.d.linux/cpu"
    ∧ ("linux" : String) ≠ ""
    ∧ isAsciiUpper 'l' = false :=
  ⟨by decide,
   C8_path_keyword_derivation.2.2.1 "node.d.linux/cpu" "linux" (by decide),
   C8_path_keyword_derivation.2.2.2 "node.d.linux/cpu" "linux" (by decide) 'l' (by decide)⟩

theorem splitOnPred_eq_single {p : Char → Bool} {l : List Char} (h : ∀ c ∈ l, p c = false) :
    splitOnPred p l = [l] := by
  induction l with
  | nil => rfl
  | cons a as ih =>
    have has := ih (fun c hc => h c (List.mem_cons_of_mem a hc))
    rw [splitOnPred_cons_eq p a as as [] has, h a (List.mem_cons_self a as)]
    simp

theorem splitNl_single {l : List Char} (h : ¬ '\n' ∈ l) : splitNl l = [l] := by
  unfold splitNl
  apply splitOnPred_eq_single
  intro c hc
  simp only [decide_eq_false_iff_not]
  intro heq
  exact h (heq ▸ hc)

theorem pySplitlines_single {l : List Char} (hne : l ≠ []) (h : ¬ '\n' ∈ l) :
    pySplitlines l = [l] := by
  unfold pySplitlines
  rw [if_neg (fun he => hne (List.isEmpty_iff.mp he)),
    if_neg (fun hgl : l.getLast? = some '\n' => h (List.mem_of_mem_getLast? hgl)),
    splitNl_single h]

theorem containsSub_ne_nil {pat l : List Char} (hp : pat ≠ [])
    (h : containsSub pat l = true) : l ≠ [] := by
  intro hl
  subst hl
  cases pat with
  | nil => exact hp rfl
  | cons a as => simp [containsSub, List.isPrefixOf] at h

/-- C6: category extraction discards a comment-prefixed `# category = db`
line, keeps exactly `db` from `graph_category db`, discards every
(single-)line mentioning `force_category`, case-folds surviving matches
into a set with duplicates merged, and discards a candidate match whose
`line` group spans more than one line (the last conjunct exhibits such a
two-line candidate, which the preceding one shows contributes nothing). -/
theorem C6_category_extraction :
    MuninPlugin.parse_categories "# category = db".toList = ∅
    ∧ MuninPlugin.parse_categories "graph_category db".toList = {"db"}
    ∧ (∀ l : List Char, ¬ '\n' ∈ l → containsSub "force_category".toList l = true →
        MuninPlugin.parse_categories l = ∅)
    ∧ MuninPlugin.parse_categories "graph_category DB\ngraph_category db".toList = {"db"}
    ∧ MuninPlugin.parse_categories "foo\ncategory: db".toList = ∅
    ∧ categoryFindall (splitNl "foo\ncategory: db".toList) =
        [("foo\ncategory: db".toList, "db".toList)] := by
  refine ⟨by decide, by decide, ?_, by decide, by decide, by decide⟩
  intro l hn hf
  unfold MuninPlugin.parse_categories
  rw [splitNl_single hn]
  cases hm : lineCategoryMatch l with
  | none => simp [categoryFindall, hm]
  | some cat =>
    have hlen : (pySplitlines l).length = 1 := by
      rw [pySplitlines_single (containsSub_ne_nil (by decide) hf) hn]
      rfl
    have hbl : categoryLineBlacklisted l = true := by
      unfold categoryLineBlacklisted blacklistAmbiguous
      rw [hf]
      simp
    simp [categoryFindall, hm, hlen, hbl]

/-- Witness for C6's universal conjunct at the line
`"env.d stats force_category db"`. -/
theorem C6_category_extraction_witness :
    ¬ '\n' ∈ "env.d stats force_category db".toList
    ∧ containsSub "force_category".toList "env.d stats force_category db".toList = true
    ∧ MuninPlugin.parse_categories "env.d stats force_category db".toList = ∅ :=
  ⟨by decide, by decide,
   C6_category_extraction.2.2.1 "env.d stats force_category db".toList (by decide) (by decide)⟩

/-- Shared fixture: a repository context for discovery runs. -/
def rcPlain : RepoCtx := ⟨"", none⟩

/-- Shared fixture: a root directory containing an `example-graphs`
directory that itself holds an (executable) file and a subdirectory with
an executable file. -/
def exampleGraphsDeepTree : FsTree :=
  .dir "root" []
    [.dir "example-graphs" [⟨"direct.png", some 493⟩]
      [.dir "sub" [⟨"foo", some 493⟩] []]]

/-- C3 counterexample: discovery on `exampleGraphsDeepTree` yields the
executable file `root/example-graphs/sub/foo`, which lies inside the
`example-graphs` directory — the walk does descend into the blacklisted
directory's subdirectories (only its direct file `direct.png` is
skipped), so the claim's "skipped entirely: no file inside it is yielded
and the walk does not descend" is false on this input. -/
theorem C3_descends_into_example_graphs_subdir :
    MuninPluginRepository.get_plugins rcPlain exampleGraphsDeepTree =
      ([MuninPlugin.construct "root/example-graphs/sub/foo" (some rcPlain) none none []], none)
    ∧ ("root/example-graphs/sub", [⟨"foo", some 493⟩]) ∈ walk "" exampleGraphsDeepTree := by
  decide

theorem visitFile_filename {rc : RepoCtx} {st : Option Nat} {dp : String} {f : FileEntry}
    {pl : MuninPlugin} {st2 : Option Nat}
    (h : visitFile rc st dp f = .ok (some pl, st2)) :
    pl.plugin_filename = dp ++ "/" ++ f.fname := by
  unfold visitFile at h
  cases hm : (match f.statMode with | some m => some m | none => st) with
  | none =>
    rw [hm] at h
    exact Except.noConfusion h
  | some mode =>
    rw [hm] at h
    simp only at h
    split at h
    · injection h with h1
      injection h1 with h2 _
      injection h2 with h3
      rw [← h3]
      exact rfl
    · split at h
      · injection h with h1
        injection h1 with h2 _
        injection h2 with h3
        rw [← h3]
        exact rfl
      · split at h
        · injection h with h1
          injection h1 with h2 _
          injection h2 with h3
          rw [← h3]
          exact rfl
        · split at h
          · injection h with h1
            injection h1 with h2 _
            injection h2 with h3
            rw [← h3]
            exact rfl
          · injection h with h1
            injection h1 with h2 _
            exact Option.noConfusion h2

theorem visitFiles_mem {rc : RepoCtx} {dp : String} {fs : List FileEntry} {st : Option Nat}
    {pl : MuninPlugin} (h : pl ∈ (visitFiles rc dp fs st).1) :
    ∃ f ∈ fs, pl.plugin_filename = dp ++ "/" ++ f.fname := by
  induction fs generalizing st with
  | nil => simp [visitFiles] at h
  | cons f fs ih =>
    unfold visitFiles at h
    split at h
    · simp at h
    · rename_i op st2 hv
      split at h
      rename_i rest st3 e hvv
      cases op with
      | none =>
        have h2 : pl ∈ rest := h
        obtain ⟨f2, hf2, hpath⟩ := @ih st2 (by rw [hvv]; exact h2)
        exact ⟨f2, List.mem_cons_of_mem f hf2, hpath⟩
      | some pl2 =>
        have h2 : pl ∈ pl2 :: rest := h
        rcases List.mem_cons.mp h2 with h1 | h1
        · subst h1
          exact ⟨f, List.mem_cons_self f fs, visitFile_filename hv⟩
        · obtain ⟨f2, hf2, hpath⟩ := @ih st2 (by rw [hvv]; exact h1)
          exact ⟨f2, List.mem_cons_of_mem f hf2, hpath⟩

theorem getPluginsAux_mem {rc : RepoCtx} {entries : List (String × List FileEntry)}
    {st : Option Nat} {pl : MuninPlugin} (h : pl ∈ (getPluginsAux rc entries st).1) :
    ∃ d fs, (d, fs) ∈ entries ∧ pathBasename d ≠ "example-graphs" ∧
      pathBasename d ≠ "node.d.debug" ∧ ∃ f ∈ fs, pl.plugin_filename = d ++ "/" ++ f.fname := by
  induction entries generalizing st with
  | nil => simp [getPluginsAux] at h
  | cons entry rest ih =>
    obtain ⟨dp, files⟩ := entry
    unfold getPluginsAux at h
    split at h
    · rename_i hb
      obtain ⟨d, fs, hmem, h1, h2, h3⟩ := @ih st h
      exact ⟨d, fs, List.mem_cons_of_mem _ hmem, h1, h2, h3⟩
    · rename_i hb
      push_neg at hb
      split at h
      · rename_i ps st2 hvv
        split at h
        rename_i rest2 e2 hgp
        have h2 : pl ∈ ps ++ rest2 := h
        rcases List.mem_append.mp h2 with h1 | h1
        · obtain ⟨f, hf, hpath⟩ := visitFiles_mem (by rw [hvv]; exact h1)
          exact ⟨dp, files, List.mem_cons_self _ _, hb.1, hb.2, f, hf, hpath⟩
        · obtain ⟨d, fs, hmem, hx1, hx2, hx3⟩ := @ih st2 (by rw [hgp]; exact h1)
          exact ⟨d, fs, List.mem_cons_of_mem _ hmem, hx1, hx2, hx3⟩
      · rename_i ps st2 err hvv
        have h2 : pl ∈ ps := h
        obtain ⟨f, hf, hpath⟩ := visitFiles_mem (by rw [hvv]; exact h2)
        exact ⟨dp, files, List.mem_cons_self _ _, hb.1, hb.2, f, hf, hpath⟩

/-- C3 amended: a directory whose basename is `example-graphs` or
`node.d.debug` has none of its own files yielded — every yielded plugin
comes from a walked directory whose basename is not blacklisted — but the
walk still descends into such a directory's subdirectories, whose files
can be yielded (the counterexample above). -/
theorem C3_blacklisted_dir_own_files_skipped (rc : RepoCtx) (root : FsTree)
    (pl : MuninPlugin) (h : pl ∈ (MuninPluginRepository.get_plugins rc root).1) :
    ∃ d fs, (d, fs) ∈ walk "" root ∧ pathBasename d ≠ "example-graphs" ∧
      pathBasename d ≠ "node.d.debug" ∧ ∃ f ∈ fs, pl.plugin_filename = d ++ "/" ++ f.fname :=
  getPluginsAux_mem h

/-- Witness for the amended C3 at `exampleGraphsDeepTree`. -/
theorem C3_blacklisted_dir_own_files_skipped_witness :
    MuninPlugin.construct "root/example-graphs/sub/foo" (some rcPlain) none none [] ∈
      (MuninPluginRepository.get_plugins rcPlain exampleGraphsDeepTree).1
    ∧ ∃ d fs, (d, fs) ∈ walk "" exampleGraphsDeepTree ∧ pathBasename d ≠ "example-graphs" ∧
        pathBasename d ≠ "node.d.debug" ∧
        ∃ f ∈ fs,
          (MuninPlugin.construct "root/example-graphs/sub/foo" (some rcPlain) none
            none []).plugin_filename = d ++ "/" ++ f.fname :=
  ⟨by decide,
   C3_blacklisted_dir_own_files_skipped rcPlain exampleGraphsDeepTree _ (by decide)⟩

/-- Shared fixture: the second file's stat fails after an executable first
file. -/
def staleStatTree : FsTree := .dir "r" [⟨"a", some 493⟩, ⟨"b.txt", none⟩] []

/-- Shared fixture: the very first visited file's stat fails. -/
def firstStatFailTree : FsTree := .dir "r" [⟨"c", none⟩, ⟨"d", some 493⟩] []

/-- C10: a failed `os.stat` is swallowed and the file is classified with
the permission bits of the most recently stat-ed earlier file — on
`staleStatTree` the non-executable-looking `b.txt` is yielded as a plugin
because the previous file's mode `0o755` is still in `status` — and when
the very first visited file fails to stat, discovery raises
`UnboundLocalError` instead of ignoring the file. -/
theorem C10_stale_stat_classification :
    (∀ (rc : RepoCtx) (m : Nat) (dp : String) (f : FileEntry), f.statMode = none →
        visitFile rc (some m) dp f = visitFile rc (some m) dp ⟨f.fname, some m⟩)
    ∧ MuninPluginRepository.get_plugins rcPlain staleStatTree =
        ([MuninPlugin.construct "r/a" (some rcPlain) none none [],
          MuninPlugin.construct "r/b.txt" (some rcPlain) none none []], none)
    ∧ MuninPluginRepository.get_plugins rcPlain firstStatFailTree =
        ([], some .unboundLocalError) := by
  refine ⟨?_, by decide, by decide⟩
  intro rc m dp f h
  unfold visitFile
  rw [h]

/-- Witness for C10's universal conjunct at the stat-failing file
`b.txt`. -/
theorem C10_stale_stat_classification_witness :
    visitFile rcPlain (some 493) "r" ⟨"b.txt", none⟩ =
      visitFile rcPlain (some 493) "r" ⟨"b.txt", some 493⟩ :=
  C10_stale_stat_classification.1 rcPlain 493 "r" ⟨"b.txt", none⟩ rfl

theorem C9_image_filenames_attribute_missing :
    (∀ b : Bool, ¬ "_image_filenames" ∈ pluginAttrs b)
    ∧ MuninPlugin.get_details_lookup true = .error "_image_filenames"
    ∧ (∀ b : Bool, MuninPlugin.str_lookup b = .error "_image_filenames")
    ∧ MuninPlugin.get_details_lookup false = .error "documentation" := by decide

end CollectPlugins
